import Mathlib

/-!
A shallow embedding of the speech-to-text core of this repository
(`src/stt.ts`, `src/types.ts`): the `transcribe` process invoker, the
`listBackends` capability prober, the configuration merge and the
argument-list construction.  Child-process behaviour (the events Node
delivers to the registered handlers) is modelled explicitly as data, and
the host runtime's `JSON.parse` is modelled by an executable JSON parser
over a JSON value type.  Stream chunks are modelled as already-decoded
strings and JSON numbers as exact rationals; neither deviation is load
bearing for any theorem below.
-/

namespace SttModel

/-- JSON values as produced by the host runtime's `JSON.parse`. -/
inductive Json where
  | null : Json
  | bool : Bool → Json
  | num : Rat → Json
  | str : String → Json
  | arr : List Json → Json
  | obj : List (String × Json) → Json

/-- The whitespace characters accepted between JSON tokens
(space, tab, line feed, carriage return). -/
def isJsonWs (c : Char) : Bool :=
  c == ' ' || c == '\t' || c == '\n' || c == '\r'

/-- Drop leading JSON whitespace. -/
def skipWs : List Char → List Char
  | [] => []
  | c :: cs => if isJsonWs c then skipWs cs else c :: cs

/-- Decimal digit test. -/
def isDigitCh (c : Char) : Bool :=
  '0' ≤ c && c ≤ '9'

/-- Split off a maximal run of leading decimal digits. -/
def takeDigits : List Char → List Char × List Char
  | [] => ([], [])
  | c :: cs =>
    if isDigitCh c then
      let r := takeDigits cs
      (c :: r.1, r.2)
    else ([], c :: cs)

/-- Value of a digit run read in base ten. -/
def digitsToNat (ds : List Char) : Nat :=
  ds.foldl (fun n c => 10 * n + (c.toNat - 48)) 0

/-- Value of one hexadecimal digit, if any. -/
def hexDigitVal (c : Char) : Option Nat :=
  if '0' ≤ c && c ≤ '9' then some (c.toNat - 48)
  else if 'a' ≤ c && c ≤ 'f' then some (c.toNat - 87)
  else if 'A' ≤ c && c ≤ 'F' then some (c.toNat - 55)
  else none

/-- Read exactly four hexadecimal digits (the `\uXXXX` escape payload). -/
def parseHex4 : List Char → Option (Nat × List Char)
  | a :: b :: c :: d :: rest => do
    let va ← hexDigitVal a
    let vb ← hexDigitVal b
    let vc ← hexDigitVal c
    let vd ← hexDigitVal d
    some (((va * 16 + vb) * 16 + vc) * 16 + vd, rest)
  | _ => none

/-- A UTF-16 code unit as a character; lone surrogates (which Lean strings
cannot hold, unlike JavaScript strings) become U+FFFD. -/
def unitToChar (n : Nat) : Char :=
  if 0xD800 ≤ n && n ≤ 0xDFFF then Char.ofNat 0xFFFD else Char.ofNat n

/-- Body of a JSON string literal after the opening quote: plain characters
and the standard escapes, ending at the closing quote.  Surrogate pairs in
`\u` escapes are combined. -/
def parseStringBody : Nat → List Char → Option (List Char × List Char)
  | 0, _ => none
  | _ + 1, [] => none
  | fuel + 1, c :: rest =>
    if c == '"' then some ([], rest)
    else if c == '\\' then
      match rest with
      | [] => none
      | e :: rest2 =>
        let esc : Option (Char × List Char) :=
          if e == '"' then some ( '"', rest2)
          else if e == '\\' then some ( '\\', rest2)
          else if e == '/' then some ( '/', rest2)
          else if e == 'b' then some (Char.ofNat 8, rest2)
          else if e == 'f' then some (Char.ofNat 12, rest2)
          else if e == 'n' then some ( '\n', rest2)
          else if e == 'r' then some ( '\r', rest2)
          else if e == 't' then some ( '\t', rest2)
          else if e == 'u' then
            match parseHex4 rest2 with
            | none => none
            | some (n, rest3) =>
              if 0xD800 ≤ n && n < 0xDC00 then
                match rest3 with
                | u1 :: u2 :: rest4 =>
                  if u1 == '\\' && u2 == 'u' then
                    match parseHex4 rest4 with
                    | some (m, rest5) =>
                      if 0xDC00 ≤ m && m < 0xE000 then
                        some (Char.ofNat (0x10000 + (n - 0xD800) * 0x400 + (m - 0xDC00)), rest5)
                      else some (Char.ofNat 0xFFFD, rest3)
                    | none => some (Char.ofNat 0xFFFD, rest3)
                  else some (Char.ofNat 0xFFFD, rest3)
                | _ => some (Char.ofNat 0xFFFD, rest3)
              else some (unitToChar n, rest3)
          else none
        match esc with
        | none => none
        | some (ch, rest3) =>
          match parseStringBody fuel rest3 with
          | none => none
          | some (tail, rem) => some (ch :: tail, rem)
    else if c.toNat < 32 then none
    else
      match parseStringBody fuel rest with
      | none => none
      | some (tail, rem) => some (c :: tail, rem)

/-- A JSON number literal: optional minus, integer part without leading
zeros, optional fraction, optional exponent; its exact rational value. -/
def parseNumber (cs : List Char) : Option (Rat × List Char) :=
  let signed : Bool × List Char :=
    match cs with
    | '-' :: r => (true, r)
    | _ => (false, cs)
  match signed.2 with
  | [] => none
  | c :: _ =>
    if isDigitCh c then
      let ip := takeDigits signed.2
      if ip.1.length > 1 && (ip.1.headD 'x' == '0') then none
      else
        let fracStep : Option (List Char × List Char) :=
          match ip.2 with
          | '.' :: r =>
            let f := takeDigits r
            if f.1.isEmpty then none else some (f.1, f.2)
          | _ => some ([], ip.2)
        match fracStep with
        | none => none
        | some (fds, afterFrac) =>
          let expStep : Option (Bool × Nat × List Char) :=
            match afterFrac with
            | e :: r =>
              if e == 'e' || e == 'E' then
                let se : Bool × List Char :=
                  match r with
                  | '-' :: r2 => (true, r2)
                  | '+' :: r2 => (false, r2)
                  | _ => (false, r)
                let eds := takeDigits se.2
                if eds.1.isEmpty then none else some (se.1, digitsToNat eds.1, eds.2)
              else some (false, 0, afterFrac)
            | [] => some (false, 0, afterFrac)
          match expStep with
          | none => none
          | some (esign, emag, rest) =>
            let mantNat : Nat := digitsToNat ip.1 * 10 ^ fds.length + digitsToNat fds
            let mant : Int := if signed.1 then -(Int.ofNat mantNat) else Int.ofNat mantNat
            let e10 : Int := (if esign then -(Int.ofNat emag) else Int.ofNat emag)
              - Int.ofNat fds.length
            let q : Rat :=
              if 0 ≤ e10 then (mant : Rat) * (10 : Rat) ^ e10.toNat
              else (mant : Rat) / (10 : Rat) ^ (-e10).toNat
            some (q, rest)
    else none

/-- Parse the elements of a JSON array after the opening bracket, given the
parser `pv` for a single value; ends at the closing bracket. -/
def parseElemsWith (pv : List Char → Option (Json × List Char)) :
    Nat → List Char → Option (List Json × List Char)
  | 0, _ => none
  | fuel + 1, cs =>
    match pv cs with
    | none => none
    | some (v, r) =>
      match skipWs r with
      | [] => none
      | d :: r2 =>
        if d == ',' then
          match parseElemsWith pv fuel r2 with
          | some (xs, r3) => some (v :: xs, r3)
          | none => none
        else if d == ']' then some ([v], r2)
        else none

/-- The closing-brace character of a JSON object. -/
def rightBrace : Char := Char.ofNat 125

/-- The opening-brace character of a JSON object. -/
def leftBrace : Char := Char.ofNat 123

/-- Parse the members of a JSON object after the opening brace, given the
parser `pv` for a single value; ends at the closing brace.  Duplicate keys
are kept in order here; field lookup takes the last occurrence, matching
the host runtime's last-assignment-wins object construction. -/
def parseMembersWith (pv : List Char → Option (Json × List Char)) :
    Nat → List Char → Option (List (String × Json) × List Char)
  | 0, _ => none
  | fuel + 1, cs =>
    match skipWs cs with
    | [] => none
    | c :: rest =>
      if c == '"' then
        match parseStringBody (rest.length + 1) rest with
        | none => none
        | some (kchars, r) =>
          match skipWs r with
          | [] => none
          | d :: r2 =>
            if d == ':' then
              match pv r2 with
              | none => none
              | some (v, r3) =>
                match skipWs r3 with
                | [] => none
                | d2 :: r4 =>
                  if d2 == ',' then
                    match parseMembersWith pv fuel r4 with
                    | some (fs, r5) => some ((String.mk kchars, v) :: fs, r5)
                    | none => none
                  else if d2 == rightBrace then some ([(String.mk kchars, v)], r4)
                  else none
            else none
      else none

/-- Parse one JSON value (with surrounding whitespace skipped on the
left), fuelled by the nesting depth. -/
def parseValue : Nat → List Char → Option (Json × List Char)
  | 0, _ => none
  | fuel + 1, cs =>
    match skipWs cs with
    | [] => none
    | c :: rest =>
      if c == 'n' then
        match rest with
        | 'u' :: 'l' :: 'l' :: r => some (Json.null, r)
        | _ => none
      else if c == 't' then
        match rest with
        | 'r' :: 'u' :: 'e' :: r => some (Json.bool true, r)
        | _ => none
      else if c == 'f' then
        match rest with
        | 'a' :: 'l' :: 's' :: 'e' :: r => some (Json.bool false, r)
        | _ => none
      else if c == '"' then
        match parseStringBody (rest.length + 1) rest with
        | some (chars, r) => some (Json.str (String.mk chars), r)
        | none => none
      else if c == '[' then
        match skipWs rest with
        | [] => none
        | d :: r2 =>
          if d == ']' then some (Json.arr [], r2)
          else
            match parseElemsWith (parseValue fuel) (rest.length + 1) (d :: r2) with
            | some (xs, r3) => some (Json.arr xs, r3)
            | none => none
      else if c == leftBrace then
        match skipWs rest with
        | [] => none
        | d :: r2 =>
          if d == rightBrace then some (Json.obj [], r2)
          else
            match parseMembersWith (parseValue fuel) (rest.length + 1) (d :: r2) with
            | some (fs, r3) => some (Json.obj fs, r3)
            | none => none
      else if c == '-' || isDigitCh c then
        match parseNumber (c :: rest) with
        | some (q, r) => some (Json.num q, r)
        | none => none
      else none

/-- The host runtime's `JSON.parse`: parse the whole string as a single
JSON value with optional surrounding whitespace; `none` models a thrown
`SyntaxError`. -/
def parseJson (s : String) : Option Json :=
  match parseValue (s.data.length + 1) s.data with
  | none => none
  | some (v, rest) =>
    match skipWs rest with
    | [] => some v
    | _ => none

/-- The ECMAScript whitespace and line-terminator characters removed by
`String.prototype.trim`. -/
def isJsWsChar (c : Char) : Bool :=
  c == ' ' || c == '\t' || c == '\n' || c == '\r' ||
  c == Char.ofNat 0x0B || c == Char.ofNat 0x0C || c == Char.ofNat 0xA0 ||
  c == Char.ofNat 0x1680 ||
  (Char.ofNat 0x2000 ≤ c && c ≤ Char.ofNat 0x200A) ||
  c == Char.ofNat 0x2028 || c == Char.ofNat 0x2029 || c == Char.ofNat 0x202F ||
  c == Char.ofNat 0x205F || c == Char.ofNat 0x3000 || c == Char.ofNat 0xFEFF

/-- The host runtime's `String.prototype.trim`: remove leading and
trailing whitespace. -/
def jsTrim (s : String) : String :=
  String.mk (((s.data.dropWhile isJsWsChar).reverse.dropWhile isJsWsChar).reverse)

/-- JavaScript string truthiness-based defaulting, `a || b`: the empty
string is the only falsy string. -/
def jsOr (a b : String) : String :=
  if a = "" then b else a

/-- JavaScript truthiness of a JSON value: `null`, `false`, `0` and the
empty string are falsy; every array and object is truthy. -/
def jsTruthy : Json → Bool
  | Json.null => false
  | Json.bool b => b
  | Json.num q => !(q == 0)
  | Json.str s => !(s == "")
  | Json.arr _ => true
  | Json.obj _ => true

/-- Field lookup on a parsed JSON object: the last binding of the key
wins, matching the host runtime's object construction from duplicate
keys. -/
def getField (fs : List (String × Json)) (k : String) : Option Json :=
  fs.foldl (fun acc p => if p.1 == k then some p.2 else acc) none

/-- JavaScript property access `v.k` on a parsed JSON value:
`Except.error` models the `TypeError` thrown on `null`; `Except.ok none`
models `undefined` (primitives and arrays have no such own property). -/
def jsGetProp : Json → String → Except Unit (Option Json)
  | Json.null, _ => Except.error ()
  | Json.obj fs, k => Except.ok (getField fs k)
  | _, _ => Except.ok none

/-- How a promise produced by an executor settles.  `rejected` is part of
the model so that never-rejecting is a statement, not a typing accident. -/
inductive PromiseOutcome (α : Type) where
  | resolved : α → PromiseOutcome α
  | rejected : String → PromiseOutcome α

/-- The first terminal event the child process delivers: either the
`error` event (spawn failure, with the error message) or the `close`
event with the exit code (`none` models a `null` code after a signal
kill). -/
inductive WorkerEvent where
  | spawnError : String → WorkerEvent
  | closed : Option Int → WorkerEvent

/-- One observed behaviour of the spawned worker: the chunks delivered to
the stdout and stderr `data` handlers, and the terminal event. -/
structure WorkerRun where
  stdoutChunks : List String
  stderrChunks : List String
  terminal : WorkerEvent

/-- The accumulation `acc += data.toString()` performed by the stream
`data` handlers, over all delivered chunks. -/
def accumulate (chunks : List String) : String :=
  chunks.foldl (fun a b => a ++ b) ""

/-- The failure object `\x7b success: false, error: e \x7d` the source
builds on every internal failure path of `transcribe`. -/
def mkFailure (e : String) : Json :=
  Json.obj [("success", Json.bool false), ("error", Json.str e)]

/-- Rendering of the `close` exit code inside a template literal:
`null` prints as the word `null`, numbers in decimal. -/
def jsCodeString : Option Int → String
  | none => "null"
  | some n => toString n

/-- The `close` handler of `transcribe` (src/stt.ts lines 51-69): with a
non-zero (or null) exit code and empty accumulated stdout, build a
failure from stderr or the exit code; otherwise parse the trimmed stdout,
resolving the parsed value verbatim on success and a parse-failure
message containing the raw stdout otherwise.  `parse` is the host
runtime's `JSON.parse`, `none` standing for the caught `SyntaxError`. -/
def transcribeOnClose (parse : String → Option Json) (stdout stderr : String)
    (code : Option Int) : Json :=
  if ¬ code = some 0 ∧ stdout = "" then
    mkFailure (jsOr stderr ("Process exited with code " ++ jsCodeString code))
  else
    match parse (jsTrim stdout) with
    | some v => v
    | none => mkFailure ("Failed to parse output: " ++ stdout)

/-- The settled outcome of the promise returned by `transcribe`
(src/stt.ts lines 35-77) for a given worker behaviour: the `error`
handler resolves a spawn-failure object; the `close` handler resolves via
`transcribeOnClose`.  No path calls `reject`. -/
def transcribeOutcome (parse : String → Option Json) (run : WorkerRun) :
    PromiseOutcome Json :=
  match run.terminal with
  | WorkerEvent.spawnError msg =>
    PromiseOutcome.resolved (mkFailure ("Failed to start STT process: " ++ msg))
  | WorkerEvent.closed code =>
    PromiseOutcome.resolved
      (transcribeOnClose parse (accumulate run.stdoutChunks)
        (accumulate run.stderrChunks) code)

/-- The `close` handler of `listBackends` (src/stt.ts lines 97-104):
parse the trimmed stdout and resolve `result.available_backends || []`;
any caught error (parse failure, or property access on `null`) resolves
the empty array. -/
def listBackendsOnClose (parse : String → Option Json) (stdout : String) : Json :=
  match parse (jsTrim stdout) with
  | none => Json.arr []
  | some v =>
    match jsGetProp v "available_backends" with
    | Except.error _ => Json.arr []
    | Except.ok none => Json.arr []
    | Except.ok (some fv) => if jsTruthy fv then fv else Json.arr []

/-- The settled outcome of the promise returned by `listBackends`
(src/stt.ts lines 86-109): the `error` handler resolves the empty array;
the `close` handler ignores the exit code and resolves via
`listBackendsOnClose`.  No path calls `reject`. -/
def listBackendsOutcome (parse : String → Option Json) (run : WorkerRun) :
    PromiseOutcome Json :=
  match run.terminal with
  | WorkerEvent.spawnError _ => PromiseOutcome.resolved (Json.arr [])
  | WorkerEvent.closed _ =>
    PromiseOutcome.resolved (listBackendsOnClose parse (accumulate run.stdoutChunks))

/-- A field of the caller-supplied configuration object: absent from the
object, present with the value `undefined`, or present with a value. -/
inductive JsOpt (α : Type) where
  | absent : JsOpt α
  | undef : JsOpt α
  | val : α → JsOpt α
deriving DecidableEq

/-- The caller-supplied `SpeechToTextConfig` (src/types.ts): every field
optional.  `maxDuration` is modelled as a natural number (the spec's
positive integer seconds). -/
structure SpeechToTextConfig where
  backend : JsOpt String
  model : JsOpt String
  language : JsOpt String
  maxDuration : JsOpt Nat
  pythonPath : JsOpt String
  scriptPath : JsOpt String
deriving DecidableEq

/-- A fully-valued configuration record, the shape of `DEFAULT_CONFIG`
(`Required<SpeechToTextConfig>` in src/types.ts). -/
structure ResolvedConfig where
  backend : String
  model : String
  language : String
  maxDuration : Nat
  pythonPath : String
  scriptPath : String
deriving DecidableEq

/-- The built-in defaults `DEFAULT_CONFIG` of src/types.ts lines
174-181. -/
def DEFAULT_CONFIG : ResolvedConfig :=
  ⟨"auto", "tiny", "en", 30, "python3", ""⟩

/-- The result of the spread merge: each field defined (with a value) or
`undefined` (`none`). -/
structure SpreadConfig where
  backend : Option String
  model : Option String
  language : Option String
  maxDuration : Option Nat
  pythonPath : Option String
  scriptPath : Option String
deriving DecidableEq

/-- Per-field semantics of the object spread `\x7b ...defaults,
...config \x7d`: an absent field keeps the default, a field present with
`undefined` overrides the default with `undefined`, a field present with
a value overrides with that value. -/
def spreadField {α : Type} (d : α) : JsOpt α → Option α
  | JsOpt.absent => some d
  | JsOpt.undef => none
  | JsOpt.val a => some a

/-- The merge `\x7b ...DEFAULT_CONFIG, ...config \x7d` of src/stt.ts
line 24, field by field. -/
def mergedConfig (c : SpeechToTextConfig) : SpreadConfig :=
  ⟨spreadField DEFAULT_CONFIG.backend c.backend,
    spreadField DEFAULT_CONFIG.model c.model,
    spreadField DEFAULT_CONFIG.language c.language,
    spreadField DEFAULT_CONFIG.maxDuration c.maxDuration,
    spreadField DEFAULT_CONFIG.pythonPath c.pythonPath,
    spreadField DEFAULT_CONFIG.scriptPath c.scriptPath⟩

/-- The argument list of src/stt.ts lines 25-33, built from a merged
configuration: script path (explicit override if non-empty, else the
computed default `defaultScriptPath` of `getScriptPath()`), then the four
flag/value pairs in source order. -/
def transcribeArgs (defaultScriptPath : String) (m : ResolvedConfig) : List String :=
  let scriptPath := jsOr m.scriptPath defaultScriptPath
  [scriptPath,
    "--backend", m.backend,
    "--model", m.model,
    "--language", m.language,
    "--duration", toString m.maxDuration]

/-- A stdio slot of the `spawn` call. -/
inductive StdioMode where
  | inheritStream : StdioMode
  | pipe : StdioMode
deriving DecidableEq

/-- The statically visible spawn configuration of one call site: the
three stdio modes and whether a `data` consumer is registered on the
piped stdout and stderr streams. -/
structure SpawnSetup where
  stdinMode : StdioMode
  stdoutMode : StdioMode
  stderrMode : StdioMode
  stdoutHasDataHandler : Bool
  stderrHasDataHandler : Bool

/-- The spawn of `transcribe` (src/stt.ts lines 36-49): stdio
`["inherit", "pipe", "pipe"]`, with `data` handlers registered on both
stdout and stderr. -/
def transcribeSpawnSetup : SpawnSetup :=
  ⟨StdioMode.inheritStream, StdioMode.pipe, StdioMode.pipe, true, true⟩

/-- The spawn of `listBackends` (src/stt.ts lines 87-95): stdio
`["inherit", "pipe", "pipe"]`, with a `data` handler registered on stdout
only. -/
def listBackendsSpawnSetup : SpawnSetup :=
  ⟨StdioMode.inheritStream, StdioMode.pipe, StdioMode.pipe, true, false⟩

/-- Every stream opened in piped mode has a data consumer attached. -/
def pipedStreamsConsumed (s : SpawnSetup) : Bool :=
  (match s.stdoutMode with
    | StdioMode.pipe => s.stdoutHasDataHandler
    | _ => true) &&
  (match s.stderrMode with
    | StdioMode.pipe => s.stderrHasDataHandler
    | _ => true)

/-- Whether a JSON value is of the tagged `SttResult` shape
(src/types.ts lines 166-172): an object whose `success` field is a
boolean tag. -/
def isSttResultShape : Json → Bool
  | Json.obj fs =>
    match getField fs "success" with
    | some (Json.bool _) => true
    | _ => false
  | _ => false

/-- Whether a JSON value is list-shaped. -/
def isJsonArr : Json → Bool
  | Json.arr _ => true
  | _ => false

/-- C1: for every `JSON.parse` behaviour and every behaviour of the
spawned worker — spawn error, any exit code (including a null code), any
stdout/stderr content — the promise returned by `transcribe` settles by
resolving to a value; no exit path rejects, spawn errors and parse
errors included. -/
theorem transcribe_always_resolves (parse : String → Option Json) (run : WorkerRun) :
    ∃ v, transcribeOutcome parse run = PromiseOutcome.resolved v := by
  obtain ⟨so, se, t⟩ := run
  cases t with
  | spawnError msg => exact ⟨_, rfl⟩
  | closed code => exact ⟨_, rfl⟩

/-- C2, counterexample: a worker that exits 0 after writing the parseable
JSON text `null` to stdout makes `transcribe` resolve with the JSON value
`null`, which is not of the tagged Success/Failure `SttResult` shape; so
the resolved value is not always within that shape. -/
theorem transcribe_result_shape_cex :
    transcribeOutcome parseJson ⟨["null"], [], WorkerEvent.closed (some 0)⟩ =
        PromiseOutcome.resolved Json.null ∧
      isSttResultShape Json.null = false := by
  exact ⟨rfl, rfl⟩

/-- C2, amended: `transcribe` always resolves with exactly one value; on
the spawn-error, abnormal-exit and parse-failure paths that value is the
core-built Failure object (which is of the tagged shape, with tag
`false`); on parse success the resolved value is the parsed stdout JSON
verbatim, with no check that it lies within the Success/Failure shape. -/
theorem transcribe_result_shape_amended (parse : String → Option Json) (run : WorkerRun) :
    ∃ v, transcribeOutcome parse run = PromiseOutcome.resolved v ∧
      ((∃ e, v = mkFailure e ∧ isSttResultShape v = true) ∨
        parse (jsTrim (accumulate run.stdoutChunks)) = some v) := by
  obtain ⟨so, se, t⟩ := run
  cases t with
  | spawnError msg => exact ⟨_, rfl, Or.inl ⟨_, rfl, rfl⟩⟩
  | closed code =>
    simp only [transcribeOutcome, transcribeOnClose, accumulate]
    by_cases hcond : ¬ code = some 0 ∧ (List.foldl (fun a b => a ++ b) "" so) = ""
    · rw [if_pos hcond]
      exact ⟨_, rfl, Or.inl ⟨_, rfl, rfl⟩⟩
    · rw [if_neg hcond]
      cases hp : parse (jsTrim (List.foldl (fun a b => a ++ b) "" so)) with
      | none => exact ⟨_, rfl, Or.inl ⟨_, rfl, rfl⟩⟩
      | some v => exact ⟨v, rfl, Or.inr rfl⟩

/-- C3: when the worker terminates with a non-zero exit code and the
accumulated stdout is empty, `transcribe` resolves a Failure whose
message is the accumulated stderr when that is non-empty, and otherwise
a message naming the exit code. -/
theorem transcribe_abnormal_exit (parse : String → Option Json) (run : WorkerRun)
    (n : Int) (hterm : run.terminal = WorkerEvent.closed (some n)) (hn : n ≠ 0)
    (hout : accumulate run.stdoutChunks = "") :
    transcribeOutcome parse run =
      PromiseOutcome.resolved (mkFailure
        (if accumulate run.stderrChunks = "" then "Process exited with code " ++ toString n
          else accumulate run.stderrChunks)) := by
  simp only [transcribeOutcome, hterm, transcribeOnClose]
  rw [if_pos ⟨by simpa using hn, hout⟩]
  by_cases hse : accumulate run.stderrChunks = "" <;>
    simp [jsOr, jsCodeString, hse]

/-- C3, witness: the spec's own stub — exit code 1, nothing on stdout,
`mic not found` on stderr — yields `Failure("mic not found")`. -/
theorem transcribe_abnormal_exit_witness :
    transcribeOutcome parseJson ⟨[], ["mic not found"], WorkerEvent.closed (some 1)⟩ =
      PromiseOutcome.resolved (mkFailure "mic not found") := by
  exact transcribe_abnormal_exit parseJson
    ⟨[], ["mic not found"], WorkerEvent.closed (some 1)⟩ 1 rfl (by decide) rfl

/-- C4: when the worker terminates with non-empty accumulated stdout, the
resolved result comes from parsing that stdout trimmed of leading and
trailing whitespace — the parsed value on success, the parse-failure
Failure otherwise — and the exit code is irrelevant: any two exit codes
(zero, non-zero, or null) give the same outcome. -/
theorem transcribe_output_trumps_exit (parse : String → Option Json) (run : WorkerRun)
    (code : Option Int) (hterm : run.terminal = WorkerEvent.closed code)
    (hout : accumulate run.stdoutChunks ≠ "") :
    (transcribeOutcome parse run =
        match parse (jsTrim (accumulate run.stdoutChunks)) with
        | some v => PromiseOutcome.resolved v
        | none => PromiseOutcome.resolved
            (mkFailure ("Failed to parse output: " ++ accumulate run.stdoutChunks))) ∧
      ∀ code2 : Option Int,
        transcribeOutcome parse ⟨run.stdoutChunks, run.stderrChunks, WorkerEvent.closed code2⟩ =
          transcribeOutcome parse run := by
  have key : ∀ c : Option Int,
      transcribeOnClose parse (accumulate run.stdoutChunks) (accumulate run.stderrChunks) c =
        match parse (jsTrim (accumulate run.stdoutChunks)) with
        | some v => v
        | none => mkFailure ("Failed to parse output: " ++ accumulate run.stdoutChunks) := by
    intro c
    simp only [transcribeOnClose]
    rw [if_neg (fun h => hout h.2)]
  constructor
  · simp only [transcribeOutcome, hterm, key code]
    cases parse (jsTrim (accumulate run.stdoutChunks)) <;> rfl
  · intro code2
    simp only [transcribeOutcome, hterm, key]

/-- C4, witness: a worker that exits with the non-zero code 5 after
writing `true` to stdout in two chunks still takes the parse path, and
`transcribe` resolves the parsed JSON `true`. -/
theorem transcribe_output_trumps_exit_witness :
    transcribeOutcome parseJson ⟨["tr", "ue"], [], WorkerEvent.closed (some 5)⟩ =
      PromiseOutcome.resolved (Json.bool true) := by
  exact (transcribe_output_trumps_exit parseJson
    ⟨["tr", "ue"], [], WorkerEvent.closed (some 5)⟩ (some 5) rfl (by decide)).1

/-- C5: on every run that reaches the parse path (exit code 0, or
non-empty accumulated stdout) on which parsing the trimmed stdout fails,
`transcribe` resolves — it does not throw — a Failure whose message is
the parse-failure prefix followed by the raw captured stdout verbatim. -/
theorem transcribe_parse_failure (parse : String → Option Json) (run : WorkerRun)
    (code : Option Int) (hterm : run.terminal = WorkerEvent.closed code)
    (hreach : code = some 0 ∨ accumulate run.stdoutChunks ≠ "")
    (hparse : parse (jsTrim (accumulate run.stdoutChunks)) = none) :
    transcribeOutcome parse run =
      PromiseOutcome.resolved
        (mkFailure ("Failed to parse output: " ++ accumulate run.stdoutChunks)) := by
  simp only [transcribeOutcome, hterm, transcribeOnClose]
  have hcond : ¬ (¬ code = some 0 ∧ accumulate run.stdoutChunks = "") := by
    rcases hreach with h | h
    · exact fun hc => hc.1 h
    · exact fun hc => h hc.2
  rw [if_neg hcond, hparse]

/-- C5, witness: the spec's stub — exit code 0 with non-JSON garbage on
stdout — yields a Failure containing the literal garbage text. -/
theorem transcribe_parse_failure_witness :
    transcribeOutcome parseJson ⟨["garbage"], [], WorkerEvent.closed (some 0)⟩ =
      PromiseOutcome.resolved (mkFailure "Failed to parse output: garbage") := by
  exact transcribe_parse_failure parseJson
    ⟨["garbage"], [], WorkerEvent.closed (some 0)⟩ (some 0) rfl (Or.inl rfl) rfl

/-- C6, counterexample: a worker whose stdout is the JSON object
`\x7b"available_backends":"x"\x7d` — a field that is present but not
list-shaped — makes `listBackends` resolve the string `"x"` verbatim,
not the empty list; so a non-list-shaped field is not degraded to an
empty list. -/
theorem listBackends_shape_cex :
    listBackendsOutcome parseJson
        ⟨["\x7b\"available_backends\":\"x\"\x7d"], [], WorkerEvent.closed (some 0)⟩ =
        PromiseOutcome.resolved (Json.str "x") ∧
      isJsonArr (Json.str "x") = false := by
  exact ⟨rfl, rfl⟩

/-- C6, amended: `listBackends` always resolves; it resolves the empty
list on spawn error, on parse failure, when the parsed value is `null`
or lacks an `available_backends` field, and when that field's value is
falsy; but when the field holds any truthy value, that value is resolved
verbatim, with no check that it is list-shaped. -/
theorem listBackends_degradation_amended (parse : String → Option Json) (run : WorkerRun) :
    ∃ v, listBackendsOutcome parse run = PromiseOutcome.resolved v ∧
      (v = Json.arr [] ∨
        ∃ j, parse (jsTrim (accumulate run.stdoutChunks)) = some j ∧
          jsGetProp j "available_backends" = Except.ok (some v) ∧
          jsTruthy v = true) := by
  obtain ⟨so, se, t⟩ := run
  cases t with
  | spawnError msg => exact ⟨_, rfl, Or.inl rfl⟩
  | closed code =>
    cases hp : parse (jsTrim (accumulate so)) with
    | none =>
      refine ⟨Json.arr [], ?_, Or.inl rfl⟩
      simp [listBackendsOutcome, listBackendsOnClose, hp]
    | some j =>
      cases hg : jsGetProp j "available_backends" with
      | error u =>
        refine ⟨Json.arr [], ?_, Or.inl rfl⟩
        simp [listBackendsOutcome, listBackendsOnClose, hp, hg]
      | ok o =>
        cases o with
        | none =>
          refine ⟨Json.arr [], ?_, Or.inl rfl⟩
          simp [listBackendsOutcome, listBackendsOnClose, hp, hg]
        | some fv =>
          by_cases ht : jsTruthy fv = true
          · refine ⟨fv, ?_, Or.inr ⟨j, rfl, hg, ht⟩⟩
            simp [listBackendsOutcome, listBackendsOnClose, hp, hg, ht]
          · refine ⟨Json.arr [], ?_, Or.inl rfl⟩
            simp [listBackendsOutcome, listBackendsOnClose, hp, hg, ht]

/-- C7: the merge of src/stt.ts line 24 is a shallow override: every
field the caller supplies with a value wins over the built-in default,
every absent field keeps its default; in particular supplying only
`model: "base"` yields model `"base"` with backend `"auto"`, language
`"en"`, maxDuration `30`, interpreter path `"python3"` and the empty
script-path default. -/
theorem transcribe_merge_shallow (c : SpeechToTextConfig) :
    ((∀ b, c.backend = JsOpt.val b → (mergedConfig c).backend = some b) ∧
      (∀ m, c.model = JsOpt.val m → (mergedConfig c).model = some m) ∧
      (∀ l, c.language = JsOpt.val l → (mergedConfig c).language = some l) ∧
      (∀ d, c.maxDuration = JsOpt.val d → (mergedConfig c).maxDuration = some d) ∧
      (∀ p, c.pythonPath = JsOpt.val p → (mergedConfig c).pythonPath = some p) ∧
      (∀ s, c.scriptPath = JsOpt.val s → (mergedConfig c).scriptPath = some s)) ∧
    ((c.backend = JsOpt.absent → (mergedConfig c).backend = some DEFAULT_CONFIG.backend) ∧
      (c.model = JsOpt.absent → (mergedConfig c).model = some DEFAULT_CONFIG.model) ∧
      (c.language = JsOpt.absent → (mergedConfig c).language = some DEFAULT_CONFIG.language) ∧
      (c.maxDuration = JsOpt.absent →
        (mergedConfig c).maxDuration = some DEFAULT_CONFIG.maxDuration) ∧
      (c.pythonPath = JsOpt.absent →
        (mergedConfig c).pythonPath = some DEFAULT_CONFIG.pythonPath) ∧
      (c.scriptPath = JsOpt.absent →
        (mergedConfig c).scriptPath = some DEFAULT_CONFIG.scriptPath)) ∧
    mergedConfig ⟨JsOpt.absent, JsOpt.val "base", JsOpt.absent, JsOpt.absent, JsOpt.absent,
        JsOpt.absent⟩ =
      ⟨some "auto", some "base", some "en", some 30, some "python3", some ""⟩ := by
  refine ⟨⟨?_, ?_, ?_, ?_, ?_, ?_⟩, ⟨?_, ?_, ?_, ?_, ?_, ?_⟩, rfl⟩ <;>
    first
      | exact fun x h => by simp only [mergedConfig, h, spreadField]
      | exact fun h => by simp only [mergedConfig, h, spreadField]

/-- C7, witness: applying the shallow-merge theorem to the configuration
that supplies only `model: "base"` gives a merged model of `"base"`. -/
theorem transcribe_merge_shallow_witness :
    (mergedConfig ⟨JsOpt.absent, JsOpt.val "base", JsOpt.absent, JsOpt.absent, JsOpt.absent,
        JsOpt.absent⟩).model = some "base" := by
  exact (transcribe_merge_shallow
    ⟨JsOpt.absent, JsOpt.val "base", JsOpt.absent, JsOpt.absent, JsOpt.absent,
      JsOpt.absent⟩).1.2.1 "base" rfl

/-- C8: for every merged configuration and every computed default script
path, the argument list is exactly the script path followed by the four
flag/value pairs in the order backend, model, language, duration, the
duration rendered as a decimal string; the flags sit at fixed positions,
so the order cannot depend on the key order of the caller's object. -/
theorem transcribe_args_order (defaultScriptPath : String) (m : ResolvedConfig) :
    transcribeArgs defaultScriptPath m =
        [jsOr m.scriptPath defaultScriptPath,
          "--backend", m.backend,
          "--model", m.model,
          "--language", m.language,
          "--duration", toString m.maxDuration] ∧
      (transcribeArgs defaultScriptPath m).length = 9 ∧
      (transcribeArgs defaultScriptPath m).get? 1 = some "--backend" ∧
      (transcribeArgs defaultScriptPath m).get? 3 = some "--model" ∧
      (transcribeArgs defaultScriptPath m).get? 5 = some "--language" ∧
      (transcribeArgs defaultScriptPath m).get? 7 = some "--duration" := by
  exact ⟨rfl, rfl, rfl, rfl, rfl, rfl⟩

/-- C9, counterexample: the spawn performed by `listBackends` opens
stderr in piped mode but registers no data consumer on it, so it is not
the case that every piped stream of every child spawned by this core has
a consumer attached. -/
theorem piped_streams_consumed_cex :
    pipedStreamsConsumed listBackendsSpawnSetup = false ∧
      listBackendsSpawnSetup.stderrMode = StdioMode.pipe ∧
      listBackendsSpawnSetup.stderrHasDataHandler = false := by
  exact ⟨rfl, rfl, rfl⟩

/-- C9, amended: `transcribe` attaches data consumers to both of its
piped stdout and stderr streams immediately upon spawn; `listBackends`
also opens both streams in piped mode but attaches a data consumer only
to stdout, leaving its piped stderr without a consumer. -/
theorem piped_streams_consumed_amended :
    pipedStreamsConsumed transcribeSpawnSetup = true ∧
      transcribeSpawnSetup.stdoutMode = StdioMode.pipe ∧
      transcribeSpawnSetup.stderrMode = StdioMode.pipe ∧
      transcribeSpawnSetup.stdoutHasDataHandler = true ∧
      transcribeSpawnSetup.stderrHasDataHandler = true ∧
      listBackendsSpawnSetup.stdoutMode = StdioMode.pipe ∧
      listBackendsSpawnSetup.stdoutHasDataHandler = true ∧
      listBackendsSpawnSetup.stderrMode = StdioMode.pipe ∧
      listBackendsSpawnSetup.stderrHasDataHandler = false := by
  exact ⟨rfl, rfl, rfl, rfl, rfl, rfl, rfl, rfl, rfl⟩

/-- C10: in the spread merge, a field present with the explicit value
`undefined` overrides the built-in default with `undefined`, while an
absent field keeps the default; so the configuration supplying only
`model: undefined` and the empty configuration merge to different
results — the former's model is `undefined`, the latter's is the default
`"tiny"`. -/
theorem merge_explicit_undefined :
    (mergedConfig ⟨JsOpt.absent, JsOpt.undef, JsOpt.absent, JsOpt.absent, JsOpt.absent,
        JsOpt.absent⟩).model = none ∧
      (mergedConfig ⟨JsOpt.absent, JsOpt.absent, JsOpt.absent, JsOpt.absent, JsOpt.absent,
        JsOpt.absent⟩).model = some DEFAULT_CONFIG.model ∧
      DEFAULT_CONFIG.model = "tiny" ∧
      decide
          (mergedConfig ⟨JsOpt.absent, JsOpt.undef, JsOpt.absent, JsOpt.absent, JsOpt.absent,
              JsOpt.absent⟩ =
            mergedConfig ⟨JsOpt.absent, JsOpt.absent, JsOpt.absent, JsOpt.absent, JsOpt.absent,
              JsOpt.absent⟩) = false := by
  exact ⟨rfl, rfl, rfl, by decide⟩

end SttModel
